import Mathlib

/-!
Verification development for the polymarket-mcp server (Rust).

Shallow embedding of the two core subsystems:
- the resilient HTTP fetch-and-cache layer (`src/polymarket_client.rs`,
  `src/error.rs`, `src/models.rs`), and
- the stdin/stdout protocol dispatcher (`src/main.rs`).

Modelling conventions:
- machine integers (`u32`, `u64`, counters, durations in milliseconds or
  seconds) are `Nat`; `f64` metrics and response-time samples are `Rat`
  (the claims under scrutiny concern which update is performed, not IEEE
  rounding);
- wall-clock instants (`Instant`, `SystemTime`) are explicit `Nat`
  parameters named `now`; `Instant::elapsed` is truncated subtraction,
  which matches its saturating non-negative behaviour;
- network I/O is an oracle `env : Nat -> AttemptStep` giving the outcome
  of each 1-indexed HTTP attempt; JSON decoding of a body (serde) is an
  oracle `decode : String -> Option T`;
- stateful methods are state-passing functions over explicit state
  records (`Metrics`, `ClientState`, `ServerState`).
-/

namespace Polymarket

/-- JSON values (`serde_json::Value`). Numbers are modelled as `Int`,
which covers every numeric literal the dispatcher produces or inspects. -/
inductive Json where
  | null : Json
  | bool (b : Bool) : Json
  | num (n : Int) : Json
  | str (s : String) : Json
  | arr (elems : List Json) : Json
  | obj (fields : List (String × Json)) : Json

/-- `Value::get(key)`: field lookup on an object, `None` on any other variant. -/
def Json.get : Json → String → Option Json
  | .obj fields, key => fields.lookup key
  | _, _ => none

/-- `Value::as_str()`. -/
def Json.asStr : Json → Option String
  | .str s => some s
  | _ => none

/-- `Value::as_u64()`: a non-negative integer. -/
def Json.asU64 : Json → Option Nat
  | .num n => if 0 ≤ n then some n.toNat else none
  | _ => none

/-- Modelled from the spec: configuration surface of `config.rs`, which is
not part of the sources under verification (only its field accesses are).
Fields are exactly those the client and dispatcher read:
`cache.enabled`, `cache.ttl_seconds`, `api.max_retries`, `api.base_url`,
`api.api_key`, the retry base delay, and the resource-cache TTL. -/
structure CacheConfig where
  enabled : Bool
  ttl_seconds : Nat
deriving DecidableEq

/-- Modelled from the spec: the `api` section of the configuration. -/
structure ApiConfig where
  base_url : String
  api_key : Option String
  max_retries : Nat
deriving DecidableEq

/-- Modelled from the spec: the whole configuration record.
`retry_delay_ms` stands for `config.retry_delay()` (milliseconds),
`resource_cache_ttl_seconds` for `config.resource_cache_ttl().as_secs()`. -/
structure Config where
  api : ApiConfig
  cache : CacheConfig
  retry_delay_ms : Nat
  resource_cache_ttl_seconds : Nat
deriving DecidableEq

/-- `Metrics` (`error.rs`): process-wide counters. The running average is
kept as a rational. -/
structure Metrics where
  api_requests_total : Nat
  api_requests_failed : Nat
  cache_hits : Nat
  cache_misses : Nat
  active_connections : Nat
  avg_response_time_ms : Rat
deriving DecidableEq

/-- `Metrics::new()` / `Default`. -/
def Metrics.new : Metrics :=
  ⟨0, 0, 0, 0, 0, 0⟩

/-- `Metrics::increment_api_requests`. -/
def Metrics.increment_api_requests (m : Metrics) : Metrics :=
  { m with api_requests_total := m.api_requests_total + 1 }

/-- `Metrics::increment_api_failures`. -/
def Metrics.increment_api_failures (m : Metrics) : Metrics :=
  { m with api_requests_failed := m.api_requests_failed + 1 }

/-- `Metrics::increment_cache_hits`. -/
def Metrics.increment_cache_hits (m : Metrics) : Metrics :=
  { m with cache_hits := m.cache_hits + 1 }

/-- `Metrics::increment_cache_misses`. -/
def Metrics.increment_cache_misses (m : Metrics) : Metrics :=
  { m with cache_misses := m.cache_misses + 1 }

/-- `Metrics::update_avg_response_time` (`error.rs` lines 268-276):
incremental running average, guarded by `api_requests_total > 0`. -/
def Metrics.update_avg_response_time (m : Metrics) (response_time_ms : Rat) : Metrics :=
  if m.api_requests_total > 0 then
    { m with avg_response_time_ms :=
        (m.avg_response_time_ms * ((m.api_requests_total : Rat) - 1) + response_time_ms)
          / (m.api_requests_total : Rat) }
  else
    { m with avg_response_time_ms := response_time_ms }

/-- `PolymarketError` (`error.rs`). The random per-error `RequestId`
(a UUID attached for logging only) is omitted; it carries no behaviour. -/
inductive PolymarketError where
  | apiError (message : String) (status_code : Option Nat)
  | rateLimitError (retry_after : Option Nat)
  | networkError (message : String)
  | deserializationError (message : String)
  | configError (message : String)
  | cacheError (message : String)
  | marketNotFound (market_id : String)
  | invalidParameters (message : String)
deriving DecidableEq

/-- Boolean success test on `Except` results. -/
def isOkE {ε α : Type} : Except ε α → Bool
  | .ok _ => true
  | .error _ => false

/-- Outcome the environment hands one HTTP attempt inside
`make_request_with_retry` (`polymarket_client.rs` lines 90-129):
the send can fail, the body read can fail, the status can be non-2xx
(with its body text), or a body text is delivered for decoding. -/
inductive AttemptStep where
  | sendErr (msg : String)
  | readErr (msg : String)
  | badStatus (status : Nat) (text : String)
  | body (text : String)

/-- One attempt of the retry loop: the error-candidate / success
classification of `make_request_with_retry`. The serde error text inside
the deserialization message is opaque; the model keeps the 200-character
body snippet that the source embeds. -/
def attemptResult {T : Type} (decode : String → Option T) : AttemptStep → Except PolymarketError T
  | .sendErr msg => .error (.networkError ("Request error: " ++ msg))
  | .readErr msg => .error (.networkError ("Response reading error: " ++ msg))
  | .badStatus status text => .error (.apiError ("HTTP error: " ++ text) (some status))
  | .body text =>
      match decode text with
      | some data => .ok data
      | none => .error (.deserializationError ("JSON parsing error - Response: " ++ text.take 200))

/-- Total extractor of the error candidate of a failing attempt; only
meaningful when the attempt does fail. -/
def attemptErr {T : Type} (decode : String → Option T) (s : AttemptStep) : PolymarketError :=
  match attemptResult decode s with
  | .error e => e
  | .ok _ => .networkError "unreachable"

/-- Trace of one `make_request_with_retry` call: final result, how many
attempts ran, and the backoff sleeps (in milliseconds, chronological). -/
structure RetryOutcome (T : Type) where
  result : Except PolymarketError T
  attemptsMade : Nat
  sleeps : List Nat

/-- The `for attempt in 1..=max_retries` loop of `make_request_with_retry`
(`polymarket_client.rs` lines 89-137), unrolled on the number of remaining
iterations; `attempt = maxRetries - remaining + 1`. After a failed attempt
that is not the last, the loop sleeps `base_delay * 2^attempt`
(`1 << attempt`); after the loop the last captured error (or, if none was
captured, a generic network failure) is returned. -/
def retryGo {T : Type} (maxRetries baseDelay : Nat) (decode : String → Option T)
    (env : Nat → AttemptStep) : Nat → Option PolymarketError → RetryOutcome T
  | 0, lastError =>
      ⟨.error (lastError.getD (.networkError "All retry attempts failed")), 0, []⟩
  | r + 1, _lastError =>
      match attemptResult decode (env (maxRetries - r)) with
      | .ok data => ⟨.ok data, 1, []⟩
      | .error e =>
          let rest := retryGo maxRetries baseDelay decode env r (some e)
          ⟨rest.result, rest.attemptsMade + 1,
           if maxRetries - r < maxRetries then
             baseDelay * 2 ^ (maxRetries - r) :: rest.sleeps
           else rest.sleeps⟩

/-- `make_request_with_retry` (`polymarket_client.rs` lines 73-147):
increments the requests-total metric once at the start; runs the retry
loop; on success updates the running average with the measured
response-time `sample`; after an exhausted loop increments the
requests-failed metric. Returns the result, the updated metrics and the
loop trace. -/
def makeRequestWithRetry {T : Type} (cfg : Config) (decode : String → Option T)
    (env : Nat → AttemptStep) (sample : Rat) (m : Metrics) :
    Except PolymarketError T × Metrics × Nat × List Nat :=
  let m1 := m.increment_api_requests
  let o := retryGo cfg.api.max_retries cfg.retry_delay_ms decode env cfg.api.max_retries none
  match o.result with
  | .ok data => (.ok data, m1.update_avg_response_time sample, o.attemptsMade, o.sleeps)
  | .error e => (.error e, m1.increment_api_failures, o.attemptsMade, o.sleeps)

/-- `Event` (`models.rs`): nested upstream record carried inside a market. -/
structure Event where
  id : String
  ticker : Option String
  title : Option String
  description : Option String
  start_date : Option String
  end_date : Option String
  image : Option String
  active : Option Bool
  volume : Option Rat
  slug : Option String
  tags : Option (List String)
deriving DecidableEq

/-- `Market` (`models.rs`): the decoded domain record. `f64` fields are
rationals; the two parallel sequences `outcomes` / `outcome_prices` are
kept as decoded (price strings still unparsed, as upstream sends them). -/
structure Market where
  id : String
  slug : String
  question : String
  description : Option String
  active : Bool
  closed : Bool
  liquidity : Rat
  volume : Rat
  end_date : String
  image : Option String
  category : Option String
  outcomes : List String
  outcome_prices : List String
  condition_id : Option String
  market_type : Option String
  twitter_card_image : Option String
  icon : Option String
  start_date : Option String
  volume_24hr : Option Rat
  events : Option (List Event)
  archived : Option Bool
  enable_order_book : Option Bool
  group_item_title : Option String
  group_item_slug : Option String
deriving DecidableEq

/-- `MarketPrice` (`models.rs`): one parsed outcome/price pair. -/
structure MarketPrice where
  market_id : String
  outcome_id : String
  price : Rat
  timestamp : String
deriving DecidableEq

/-- `MarketsQueryParams` (`models.rs`). -/
structure MarketsQueryParams where
  limit : Option Nat
  offset : Option Nat
  order : Option String
  ascending : Option Bool
  active : Option Bool
  closed : Option Bool
  archived : Option Bool
  liquidity_num_min : Option Rat
  liquidity_num_max : Option Rat
  volume_num_min : Option Rat
  volume_num_max : Option Rat
  start_date_min : Option String
  start_date_max : Option String
  end_date_min : Option String
  end_date_max : Option String
  tag_id : Option String
  related_tags : Option Bool
deriving DecidableEq

/-- `MarketsQueryParams::default()` (`models.rs` lines 194-216). -/
instance : Inhabited MarketsQueryParams :=
  ⟨{ limit := some 20
     offset := some 0
     order := some "liquidity"
     ascending := some false
     active := some true
     closed := none
     archived := some false
     liquidity_num_min := none
     liquidity_num_max := none
     volume_num_min := none
     volume_num_max := none
     start_date_min := none
     start_date_max := none
     end_date_min := none
     end_date_max := none
     tag_id := none
     related_tags := none }⟩

/-- Serialization of one optional field for cache keys and query strings. -/
def optStr {α : Type} (f : α → String) : Option α → String
  | some a => f a
  | none => "null"

/-- `serde_json::to_string(&query_params)`: canonical field-order
serialization of the full parameter record, used only as a cache key.
Exact numeric formatting is irrelevant to every claim; injectivity and
determinism are what matter. -/
def MarketsQueryParams.serializeJson (p : MarketsQueryParams) : String :=
  String.intercalate ","
    [ "limit:" ++ optStr (fun n : Nat => toString n) p.limit
    , "offset:" ++ optStr (fun n : Nat => toString n) p.offset
    , "order:" ++ optStr id p.order
    , "ascending:" ++ optStr (fun b : Bool => toString b) p.ascending
    , "active:" ++ optStr (fun b : Bool => toString b) p.active
    , "closed:" ++ optStr (fun b : Bool => toString b) p.closed
    , "archived:" ++ optStr (fun b : Bool => toString b) p.archived
    , "liquidity_num_min:" ++ optStr (fun q : Rat => toString q) p.liquidity_num_min
    , "liquidity_num_max:" ++ optStr (fun q : Rat => toString q) p.liquidity_num_max
    , "volume_num_min:" ++ optStr (fun q : Rat => toString q) p.volume_num_min
    , "volume_num_max:" ++ optStr (fun q : Rat => toString q) p.volume_num_max
    , "start_date_min:" ++ optStr id p.start_date_min
    , "start_date_max:" ++ optStr id p.start_date_max
    , "end_date_min:" ++ optStr id p.end_date_min
    , "end_date_max:" ++ optStr id p.end_date_max
    , "tag_id:" ++ optStr id p.tag_id
    , "related_tags:" ++ optStr (fun b : Bool => toString b) p.related_tags ]

/-- `MarketsQueryParams::to_query_string` (`models.rs` lines 219-279):
only present parameters are serialized, joined by `&`, prefixed by `?`. -/
def MarketsQueryParams.to_query_string (p : MarketsQueryParams) : String :=
  let pushIf {α : Type} (name : String) (f : α → String) : Option α → List String
    | some a => [name ++ "=" ++ f a]
    | none => []
  let params :=
    pushIf "limit" (fun n : Nat => toString n) p.limit
    ++ pushIf "offset" (fun n : Nat => toString n) p.offset
    ++ pushIf "order" id p.order
    ++ pushIf "ascending" (fun b : Bool => toString b) p.ascending
    ++ pushIf "active" (fun b : Bool => toString b) p.active
    ++ pushIf "closed" (fun b : Bool => toString b) p.closed
    ++ pushIf "archived" (fun b : Bool => toString b) p.archived
    ++ pushIf "liquidity_num_min" (fun q : Rat => toString q) p.liquidity_num_min
    ++ pushIf "liquidity_num_max" (fun q : Rat => toString q) p.liquidity_num_max
    ++ pushIf "volume_num_min" (fun q : Rat => toString q) p.volume_num_min
    ++ pushIf "volume_num_max" (fun q : Rat => toString q) p.volume_num_max
    ++ pushIf "start_date_min" id p.start_date_min
    ++ pushIf "start_date_max" id p.start_date_max
    ++ pushIf "end_date_min" id p.end_date_min
    ++ pushIf "end_date_max" id p.end_date_max
    ++ pushIf "tag_id" id p.tag_id
    ++ pushIf "related_tags" (fun b : Bool => toString b) p.related_tags
  if params.isEmpty then "" else "?" ++ String.intercalate "&" params

/-- `CacheEntry<T>` (`polymarket_client.rs` lines 12-16): a value plus its
creation instant. -/
structure CacheEntry (T : Type) where
  data : T
  timestamp : Nat
deriving DecidableEq

/-- `CacheEntry::is_expired(ttl)` (`polymarket_client.rs` lines 26-28):
`self.timestamp.elapsed() > ttl`, strict. `now - timestamp` is the
elapsed age. -/
def CacheEntry.is_expired {T : Type} (e : CacheEntry T) (now ttl : Nat) : Bool :=
  now - e.timestamp > ttl

/-- `ResourceCache` (`models.rs` lines 325-330): pre-rendered text with an
absolute expiry in seconds since the epoch. -/
structure ResourceCache where
  data : String
  timestamp : Nat
  expires_at : Nat
deriving DecidableEq

/-- `ResourceCache::new(data, ttl_seconds)` (`models.rs` lines 333-344):
`expires_at = now + ttl`. -/
def ResourceCache.new (data : String) (ttl_seconds now : Nat) : ResourceCache :=
  ⟨data, now, now + ttl_seconds⟩

/-- `ResourceCache::is_expired` (`models.rs` lines 346-353):
`now > expires_at`, strict. -/
def ResourceCache.is_expired (rc : ResourceCache) (now : Nat) : Bool :=
  now > rc.expires_at

/-- Map insertion with `HashMap::insert` replacement semantics on an
association list. -/
def mapInsert {V : Type} (k : String) (v : V) (l : List (String × V)) : List (String × V) :=
  (k, v) :: l.filter (fun p => p.1 != k)

/-- Mutable state of `PolymarketClient`: the two query caches and the
client metrics block. -/
structure ClientState where
  market_cache : List (String × CacheEntry (List Market))
  single_market_cache : List (String × CacheEntry Market)
  metrics : Metrics
deriving DecidableEq

/-- `PolymarketClient::get_markets` (`polymarket_client.rs` lines 149-186).
When caching is enabled, a fresh cache hit returns the clone and records
a hit; otherwise a miss is recorded (unconditionally), the page is
fetched with retry, and — again only when caching is enabled — the result
is written back keyed by the serialized parameters. -/
def get_markets (cfg : Config) (decode : String → Option (List Market))
    (env : Nat → AttemptStep) (sample : Rat) (now : Nat)
    (params : Option MarketsQueryParams) (st : ClientState) :
    Except PolymarketError (List Market) × ClientState :=
  let query_params := params.getD default
  let cache_key := "markets_" ++ query_params.serializeJson
  let cached : Option (List Market) :=
    if cfg.cache.enabled then
      match st.market_cache.lookup cache_key with
      | some entry =>
          if entry.is_expired now cfg.cache.ttl_seconds then none else some entry.data
      | none => none
    else none
  match cached with
  | some data =>
      (.ok data, { st with metrics := st.metrics.increment_cache_hits })
  | none =>
      let m1 := st.metrics.increment_cache_misses
      let r := makeRequestWithRetry cfg decode env sample m1
      match r.1 with
      | .ok response =>
          (.ok response,
           { st with
               metrics := r.2.1
               market_cache :=
                 if cfg.cache.enabled then
                   mapInsert cache_key ⟨response, now⟩ st.market_cache
                 else st.market_cache })
      | .error e => (.error e, { st with metrics := r.2.1 })

/-- `PolymarketClient::get_market_by_id` (`polymarket_client.rs` lines
188-222): same shape as `get_markets` over the single-market cache, keyed
by the market id. -/
def get_market_by_id (cfg : Config) (decode : String → Option Market)
    (env : Nat → AttemptStep) (sample : Rat) (now : Nat)
    (market_id : String) (st : ClientState) :
    Except PolymarketError Market × ClientState :=
  let cache_key := market_id
  let cached : Option Market :=
    if cfg.cache.enabled then
      match st.single_market_cache.lookup cache_key with
      | some entry =>
          if entry.is_expired now cfg.cache.ttl_seconds then none else some entry.data
      | none => none
    else none
  match cached with
  | some data =>
      (.ok data, { st with metrics := st.metrics.increment_cache_hits })
  | none =>
      let m1 := st.metrics.increment_cache_misses
      let r := makeRequestWithRetry cfg decode env sample m1
      match r.1 with
      | .ok market =>
          (.ok market,
           { st with
               metrics := r.2.1
               single_market_cache :=
                 if cfg.cache.enabled then
                   mapInsert cache_key ⟨market, now⟩ st.single_market_cache
                 else st.single_market_cache })
      | .error e => (.error e, { st with metrics := r.2.1 })

/-- `str::to_lowercase`: character-wise lowercasing (the embedding maps
`Char.toLower` over the characters; the claims need only that it is a
function of the character sequence). -/
def strToLower (s : String) : String :=
  ⟨s.data.map Char.toLower⟩

/-- `str::starts_with` on strings, via the character lists. -/
def strStartsWith (s pre : String) : Bool :=
  pre.data.isPrefixOf s.data

/-- Dropping the first `n` characters of a string (the uri tail after the
leading scheme has been matched). -/
def strDrop (s : String) (n : Nat) : String :=
  ⟨s.data.drop n⟩

/-- Substring occurrence on character lists: the pattern occurs at the
head or somewhere in the tail. `str::contains` of Rust. -/
def subOcc (pat : List Char) : List Char → Bool
  | [] => pat == []
  | c :: rest => (pat == (c :: rest).take pat.length) || subOcc pat rest

/-- `haystack.contains(pattern)` on strings. -/
def strContains (hay pat : String) : Bool :=
  subOcc pat.data hay.data

/-- The client-side match predicate of `search_markets`
(`polymarket_client.rs` lines 235-243), applied to an already lowercased
keyword: lowercased question contains it, or the lowercased description
(when present) does, or the lowercased category (when present) does. -/
def marketMatches (keyword_lower : String) (m : Market) : Bool :=
  strContains (strToLower m.question) keyword_lower
  || (match m.description with
      | some desc => strContains (strToLower desc) keyword_lower
      | none => false)
  || (match m.category with
      | some cat => strContains (strToLower cat) keyword_lower
      | none => false)

/-- The filtering stage of `search_markets` (`polymarket_client.rs` lines
232-244): lowercase the keyword once, keep matching markets. -/
def search_filter (keyword : String) (markets : List Market) : List Market :=
  let keyword_lower := strToLower keyword
  markets.filter (fun m => marketMatches keyword_lower m)

/-- `PolymarketClient::search_markets` (`polymarket_client.rs` lines
224-248): fetch one markets page (limit defaulting to 20), then filter
client-side by the keyword. -/
def search_markets (cfg : Config) (decode : String → Option (List Market))
    (env : Nat → AttemptStep) (sample : Rat) (now : Nat)
    (keyword : String) (limit : Option Nat) (st : ClientState) :
    Except PolymarketError (List Market) × ClientState :=
  let params : MarketsQueryParams := { (default : MarketsQueryParams) with limit := limit.or (some 20) }
  match get_markets cfg decode env sample now (some params) st with
  | (.ok markets, st') => (.ok (search_filter keyword markets), st')
  | (.error e, st') => (.error e, st')

/-- The accumulation loop of `get_market_prices` (`polymarket_client.rs`
lines 254-265) over the outcome indices: for index `i`, look up
`outcome_prices[i]`; if present and its string parses, push a
`MarketPrice`; otherwise skip the index. -/
def collectPrices (parse : String → Option Rat) (market_id timestamp : String)
    (outcome_prices : List String) : List Nat → List MarketPrice
  | [] => []
  | i :: rest =>
      match outcome_prices[i]? with
      | some price_str =>
          match parse price_str with
          | some price =>
              ⟨market_id, "outcome_" ++ toString i, price, timestamp⟩
                :: collectPrices parse market_id timestamp outcome_prices rest
          | none => collectPrices parse market_id timestamp outcome_prices rest
      | none => collectPrices parse market_id timestamp outcome_prices rest

/-- `PolymarketClient::get_market_prices` (`polymarket_client.rs` lines
250-268): fetch the market, then run the index loop over
`0 .. outcomes.len()`. `parse` models `str::parse::<f64>`, `timestamp`
the rendered wall-clock instant. -/
def get_market_prices (cfg : Config) (decode : String → Option Market)
    (env : Nat → AttemptStep) (sample : Rat) (now : Nat)
    (parse : String → Option Rat) (timestamp : String)
    (market_id : String) (st : ClientState) :
    Except PolymarketError (List MarketPrice) × ClientState :=
  match get_market_by_id cfg decode env sample now market_id st with
  | (.ok market, st') =>
      (.ok (collectPrices parse market_id timestamp market.outcome_prices
              (List.range market.outcomes.length)), st')
  | (.error e, st') => (.error e, st')

/-- `PolymarketClient::get_trending_markets` (`polymarket_client.rs` lines
270-280). -/
def get_trending_markets (cfg : Config) (decode : String → Option (List Market))
    (env : Nat → AttemptStep) (sample : Rat) (now : Nat)
    (limit : Option Nat) (st : ClientState) :
    Except PolymarketError (List Market) × ClientState :=
  let params : MarketsQueryParams :=
    { (default : MarketsQueryParams) with
        limit := limit.or (some 10)
        order := some "volume"
        ascending := some false
        active := some true }
  get_markets cfg decode env sample now (some params) st

/-- `PolymarketClient::get_active_markets` (`polymarket_client.rs` lines
282-291). -/
def get_active_markets (cfg : Config) (decode : String → Option (List Market))
    (env : Nat → AttemptStep) (sample : Rat) (now : Nat)
    (limit : Option Nat) (st : ClientState) :
    Except PolymarketError (List Market) × ClientState :=
  let params : MarketsQueryParams :=
    { (default : MarketsQueryParams) with
        limit := limit.or (some 50)
        active := some true
        archived := some false }
  get_markets cfg decode env sample now (some params) st

/-- Failure cases of `read_resource`: a propagated repository error or an
unknown resource URI. -/
inductive ReadErr where
  | api (e : PolymarketError)
  | unknownUri (uri : String)
deriving DecidableEq

/-- Rendering oracles for `read_resource` (`main.rs` lines 176-196): the
pretty-printed JSON blobs (which embed a fresh wall-clock timestamp) for
the active list, the trending list, and a single market. -/
structure RenderFns where
  active : List Market → String
  trending : List Market → String
  market : Market → String

/-- Mutable state of `PolymarketMcpServer`: the client state, the
string-keyed resource cache, and the server-level metrics block. -/
structure ServerState where
  client : ClientState
  resource_cache : List (String × ResourceCache)
  metrics : Metrics
deriving DecidableEq

/-- The contents envelope `read_resource` returns (`main.rs` lines
164-170 and 209-215). -/
def mkContents (uri text : String) : Json :=
  Json.obj [("contents", Json.arr [Json.obj
    [("uri", Json.str uri), ("mimeType", Json.str "application/json"),
     ("text", Json.str text)]])]

/-- The fresh-cache-hit probe at the top of `read_resource` (`main.rs`
lines 159-173): the cached text when the uri is present and unexpired. -/
def resourceHit (st : ServerState) (uri : String) (now : Nat) : Option String :=
  match st.resource_cache.lookup uri with
  | some cached => if cached.is_expired now then none else some cached.data
  | none => none

/-- The uri dispatch of `read_resource` (`main.rs` lines 175-200):
`markets:active` renders the top-20 active page, `markets:trending` the
top-10 trending page, `market:{id}` a single market; anything else is an
unknown-resource failure that performs no repository call. -/
def renderResource (cfg : Config) (decodeList : String → Option (List Market))
    (decodeMarket : String → Option Market) (env : Nat → AttemptStep)
    (sample : Rat) (now : Nat) (render : RenderFns) (uri : String)
    (cst : ClientState) : Except ReadErr String × ClientState :=
  if uri = "markets:active" then
    match get_active_markets cfg decodeList env sample now (some 20) cst with
    | (.ok markets, cst') => (.ok (render.active markets), cst')
    | (.error e, cst') => (.error (.api e), cst')
  else if uri = "markets:trending" then
    match get_trending_markets cfg decodeList env sample now (some 10) cst with
    | (.ok markets, cst') => (.ok (render.trending markets), cst')
    | (.error e, cst') => (.error (.api e), cst')
  else if strStartsWith uri "market:" then
    match get_market_by_id cfg decodeMarket env sample now (strDrop uri 7) cst with
    | (.ok market, cst') => (.ok (render.market market), cst')
    | (.error e, cst') => (.error (.api e), cst')
  else
    (.error (.unknownUri uri), cst)

/-- `PolymarketMcpServer::read_resource` (`main.rs` lines 155-216): serve
a fresh cached text if any; otherwise render by uri and — unconditionally
in the source — write the rendered text back into the resource cache with
the configured TTL before returning it. -/
def read_resource (cfg : Config) (decodeList : String → Option (List Market))
    (decodeMarket : String → Option Market) (env : Nat → AttemptStep)
    (sample : Rat) (now : Nat) (render : RenderFns) (uri : String)
    (st : ServerState) : Except ReadErr Json × ServerState :=
  match resourceHit st uri now with
  | some text => (.ok (mkContents uri text), st)
  | none =>
      match renderResource cfg decodeList decodeMarket env sample now render uri st.client with
      | (.error e, cst') => (.error e, { st with client := cst' })
      | (.ok content, cst') =>
          let ttl := cfg.resource_cache_ttl_seconds
          (.ok (mkContents uri content),
           { st with
               client := cst'
               resource_cache :=
                 mapInsert uri (ResourceCache.new content ttl now) st.resource_cache })

/-- The server-operation surface the dispatcher calls (`main.rs`
`PolymarketMcpServer` methods, each returning `Result<Value>` whose error
renders as a display string), plus `serde_json::to_string_pretty` as the
`pretty` oracle. The dispatcher theorems quantify over every such
implementation. -/
structure ServerOps where
  get_active_markets : Option Nat → Except String Json
  get_market_details : String → Except String Json
  search_markets : String → Option Nat → Except String Json
  get_market_prices : String → Except String Json
  get_trending_markets : Option Nat → Except String Json
  list_resources : Except String Json
  read_resource : String → Except String Json
  list_prompts : Except String Json
  get_prompt : String → Option Json → Except String Json
  pretty : Json → String

/-- The static `initialize` result (`main.rs` lines 438-451). -/
def initializeResult : Json :=
  Json.obj
    [ ("protocolVersion", Json.str "2024-11-05")
    , ("capabilities", Json.obj
        [ ("tools", Json.obj [])
        , ("resources", Json.obj [])
        , ("prompts", Json.obj []) ])
    , ("serverInfo", Json.obj
        [ ("name", Json.str "polymarket-mcp")
        , ("version", Json.str "1.0.0") ]) ]

/-- One tool entry of the static `tools/list` catalog. -/
def toolEntry (name description : String) (props : List (String × String × String))
    (required : List String) : Json :=
  Json.obj
    [ ("name", Json.str name)
    , ("description", Json.str description)
    , ("inputSchema", Json.obj
        ([ ("type", Json.str "object")
         , ("properties", Json.obj (props.map (fun p =>
             (p.1, Json.obj [("type", Json.str p.2.1), ("description", Json.str p.2.2)])))) ]
         ++ (if required.isEmpty then []
             else [("required", Json.arr (required.map Json.str))]))) ]

/-- The static `tools/list` result (`main.rs` lines 452-529). -/
def toolsListResult : Json :=
  Json.obj [("tools", Json.arr
    [ toolEntry "get_active_markets" "Get list of active prediction markets"
        [("limit", "number", "Maximum number of markets to return")] []
    , toolEntry "get_market_details" "Get detailed information about a specific market"
        [("market_id", "string", "The ID of the market")] ["market_id"]
    , toolEntry "search_markets" "Search markets by keyword"
        [("keyword", "string", "Keyword to search for"),
         ("limit", "number", "Maximum number of results")] ["keyword"]
    , toolEntry "get_market_prices" "Get current prices for a market"
        [("market_id", "string", "The ID of the market")] ["market_id"]
    , toolEntry "get_trending_markets" "Get trending markets with high volume"
        [("limit", "number", "Maximum number of markets to return")] [] ])]

/-- Wrapping of one tool call outcome (`main.rs` tools/call arms): success
becomes a text-content envelope of the pretty-printed result, failure a
text-content envelope with the error message and `isError: true`. -/
def toolResult (ops : ServerOps) : Except String Json → Json
  | .ok r => Json.obj
      [("content", Json.arr [Json.obj
        [("type", Json.str "text"), ("text", Json.str (ops.pretty r))]])]
  | .error e => Json.obj
      [ ("content", Json.arr [Json.obj
          [("type", Json.str "text"), ("text", Json.str ("Error: " ++ e))]])
      , ("isError", Json.bool true) ]

/-- The unknown-tool payload (`main.rs` lines 626-632). -/
def unknownToolResult (name : String) : Json :=
  Json.obj
    [ ("content", Json.arr [Json.obj
        [("type", Json.str "text"), ("text", Json.str ("Unknown tool: " ++ name))]])
    , ("isError", Json.bool true) ]

/-- The `tools/call` arm (`main.rs` lines 530-633). `none` models the `?`
early returns of the source: a missing or non-string `name`, `market_id`
or `keyword` aborts the whole handler with no response. -/
def toolsCall (ops : ServerOps) (params : Json) : Option Json :=
  match (params.get "name").bind Json.asStr with
  | none => none
  | some name =>
      let args := (params.get "arguments").getD (Json.obj [])
      if name = "get_active_markets" then
        some (toolResult ops (ops.get_active_markets ((args.get "limit").bind Json.asU64)))
      else if name = "get_market_details" then
        match (args.get "market_id").bind Json.asStr with
        | none => none
        | some market_id => some (toolResult ops (ops.get_market_details market_id))
      else if name = "search_markets" then
        match (args.get "keyword").bind Json.asStr with
        | none => none
        | some keyword =>
            some (toolResult ops
              (ops.search_markets keyword ((args.get "limit").bind Json.asU64)))
      else if name = "get_market_prices" then
        match (args.get "market_id").bind Json.asStr with
        | none => none
        | some market_id => some (toolResult ops (ops.get_market_prices market_id))
      else if name = "get_trending_markets" then
        some (toolResult ops (ops.get_trending_markets ((args.get "limit").bind Json.asU64)))
      else
        some (unknownToolResult name)

/-- The unknown-method payload (`main.rs` lines 674-681): an object with
an inner `error` member carrying code `-32601`. -/
def methodNotFoundResult : Json :=
  Json.obj [("error", Json.obj
    [("code", Json.num (-32601)), ("message", Json.str "Method not found")])]

/-- The method dispatch of `handle_mcp_request` (`main.rs` lines 437-682),
producing the `result` payload; `none` models the `?` early returns
inside the `tools/call`, `resources/read` and `prompts/get` arms. -/
def dispatchMethod (ops : ServerOps) (method : String) (params : Json) : Option Json :=
  if method = "initialize" then some initializeResult
  else if method = "tools/list" then some toolsListResult
  else if method = "tools/call" then toolsCall ops params
  else if method = "resources/list" then
    some (match ops.list_resources with
      | .ok r => r
      | .error e => Json.obj
          [ ("resources", Json.arr [])
          , ("error", Json.str ("Error listing resources: " ++ e)) ])
  else if method = "resources/read" then
    match (params.get "uri").bind Json.asStr with
    | none => none
    | some uri =>
        some (match ops.read_resource uri with
          | .ok r => r
          | .error e => Json.obj
              [ ("contents", Json.arr [])
              , ("error", Json.str ("Error reading resource: " ++ e)) ])
  else if method = "prompts/list" then
    some (match ops.list_prompts with
      | .ok r => r
      | .error e => Json.obj
          [ ("prompts", Json.arr [])
          , ("error", Json.str ("Error listing prompts: " ++ e)) ])
  else if method = "prompts/get" then
    match (params.get "name").bind Json.asStr with
    | none => none
    | some name =>
        some (match ops.get_prompt name (params.get "arguments") with
          | .ok r => r
          | .error e => Json.obj
              [ ("messages", Json.arr [])
              , ("error", Json.str ("Error getting prompt: " ++ e)) ])
  else
    some methodNotFoundResult

/-- The response envelope (`main.rs` lines 684-688): `jsonrpc`, the echoed
id (`null` when the request had none, matching the serialization of
`Option<Value>`), and the `result` payload. -/
def mkEnvelope (id : Option Json) (result : Json) : Json :=
  Json.obj [("jsonrpc", Json.str "2.0"), ("id", id.getD Json.null), ("result", result)]

/-- `handle_mcp_request` (`main.rs` lines 427-689): extract the method
string (aborting on a missing or non-string method), drop notifications,
dispatch, and wrap in the envelope. `none` means no response line. -/
def handle_mcp_request (ops : ServerOps) (request : Json) : Option Json :=
  match (request.get "method").bind Json.asStr with
  | none => none
  | some method =>
      let id := request.get "id"
      let params := (request.get "params").getD Json.null
      if strStartsWith method "notifications/" then none
      else
        match dispatchMethod ops method params with
        | none => none
        | some result => some (mkEnvelope id result)

/-- The per-line write behaviour of the `main` read loop (`main.rs` lines
402-421): one response line when the handler returns one, none otherwise. -/
def dispatchLine (ops : ServerOps) (request : Json) : List Json :=
  match handle_mcp_request ops request with
  | some response => [response]
  | none => []

/-- The method-specific required string fields whose absence makes the
source handler abort through `?` with no response: `tools/call` needs a
`name` (and, per tool, a `market_id` or `keyword` argument),
`resources/read` a `uri`, `prompts/get` a `name`. -/
def requiredToolsOk (params : Json) : Bool :=
  match (params.get "name").bind Json.asStr with
  | none => false
  | some name =>
      let args := (params.get "arguments").getD (Json.obj [])
      if name = "get_active_markets" then true
      else if name = "get_market_details" then ((args.get "market_id").bind Json.asStr).isSome
      else if name = "search_markets" then ((args.get "keyword").bind Json.asStr).isSome
      else if name = "get_market_prices" then ((args.get "market_id").bind Json.asStr).isSome
      else if name = "get_trending_markets" then true
      else true

/-- Whether every required inner string field of the given method is
present in `params`; methods without such fields are always satisfied. -/
def requiredFieldsOk (method : String) (params : Json) : Bool :=
  if method = "tools/call" then requiredToolsOk params
  else if method = "resources/read" then ((params.get "uri").bind Json.asStr).isSome
  else if method = "prompts/get" then ((params.get "name").bind Json.asStr).isSome
  else true

/-! Theorems. -/

/-- C10: expiry is strict at the boundary in both cache variants. A
query-cache entry whose elapsed age (`now - timestamp`) equals the TTL
exactly is not expired (`is_expired` compares with strict `>`), and a
resource-cache entry is not expired at the instant `now = expires_at`;
expiry holds exactly when the age strictly exceeds the TTL, respectively
when `now` strictly exceeds `expires_at`. -/
theorem c10_expiry_strict {T : Type} (e : CacheEntry T) (now ttl : Nat)
    (rc : ResourceCache) (t : Nat) :
    (e.is_expired now ttl = true ↔ ttl < now - e.timestamp)
    ∧ (now - e.timestamp = ttl → e.is_expired now ttl = false)
    ∧ (rc.is_expired t = true ↔ rc.expires_at < t)
    ∧ (t = rc.expires_at → rc.is_expired t = false) := by
  refine ⟨?_, ?_, ?_, ?_⟩
  · simp [CacheEntry.is_expired]
  · intro h
    simp [CacheEntry.is_expired, h]
  · simp [ResourceCache.is_expired]
  · intro h
    simp [ResourceCache.is_expired, h]

/-- Witness for C10 at a concrete boundary: an entry created at 5,
queried at 15 with TTL 10 (age exactly the TTL), and a resource entry
queried at its exact `expires_at`. -/
theorem c10_expiry_strict_witness :
    CacheEntry.is_expired (T := Nat) ⟨0, 5⟩ 15 10 = false
    ∧ ResourceCache.is_expired ⟨"x", 0, 20⟩ 20 = false :=
  ⟨(c10_expiry_strict (T := Nat) ⟨0, 5⟩ 15 10 ⟨"x", 0, 20⟩ 20).2.1 rfl,
   (c10_expiry_strict (T := Nat) ⟨0, 5⟩ 15 10 ⟨"x", 0, 20⟩ 20).2.2.2 rfl⟩

/-- The match predicate of the search filter, unfolded into the
propositional form of the specification: lowercased keyword occurs in the
lowercased question, or in the lowercased description when present, or in
the lowercased category when present. -/
theorem marketMatches_iff (k : String) (m : Market) :
    marketMatches k m = true ↔
      (strContains (strToLower m.question) k = true
       ∨ (∃ d, m.description = some d ∧ strContains (strToLower d) k = true)
       ∨ (∃ c, m.category = some c ∧ strContains (strToLower c) k = true)) := by
  unfold marketMatches
  cases hd : m.description <;> cases hc : m.category <;>
    simp [hd, hc, Bool.or_eq_true, or_assoc]

/-- C8: a fetched market is kept by the search filter exactly when the
lowercased keyword is a substring of the lowercased question, or of the
lowercased description when present, or of the lowercased category when
present; and two keywords with the same lowercasing (in particular two
keywords differing only in letter case) give identical `search_markets`
results over the same fetched page and state. -/
theorem c8_search_case_insensitive (cfg : Config)
    (decode : String → Option (List Market)) (env : Nat → AttemptStep)
    (sample : Rat) (now : Nat) (limit : Option Nat) (st : ClientState)
    (kw1 kw2 : String) (markets : List Market) (m : Market)
    (h : strToLower kw1 = strToLower kw2) :
    search_markets cfg decode env sample now kw1 limit st
      = search_markets cfg decode env sample now kw2 limit st
    ∧ (m ∈ search_filter kw1 markets ↔
        m ∈ markets ∧
          (strContains (strToLower m.question) (strToLower kw1) = true
           ∨ (∃ d, m.description = some d
                ∧ strContains (strToLower d) (strToLower kw1) = true)
           ∨ (∃ c, m.category = some c
                ∧ strContains (strToLower c) (strToLower kw1) = true))) := by
  have hf : search_filter kw1 = search_filter kw2 := by
    funext ms
    unfold search_filter
    rw [h]
  constructor
  · unfold search_markets
    rw [hf]
  · unfold search_filter
    simp only [List.mem_filter]
    constructor
    · rintro ⟨hm, hp⟩
      exact ⟨hm, (marketMatches_iff (strToLower kw1) m).mp hp⟩
    · rintro ⟨hm, hp⟩
      exact ⟨hm, (marketMatches_iff (strToLower kw1) m).mpr hp⟩

/-- A concrete market used by the search witness. -/
def electionMarket : Market :=
  { id := "m1", slug := "m1", question := "Will candidate A win the Election?"
    description := none, active := true, closed := false
    liquidity := 0, volume := 0, end_date := "2024-12-31"
    image := none, category := some "Politics"
    outcomes := ["Yes", "No"], outcome_prices := ["0.55", "0.45"]
    condition_id := none, market_type := none, twitter_card_image := none
    icon := none, start_date := none, volume_24hr := none, events := none
    archived := none, enable_order_book := none, group_item_title := none
    group_item_slug := none }

/-- Concrete configuration with caching disabled, one retry attempt. -/
def cfgOff : Config :=
  ⟨⟨"http://localhost", none, 1⟩, ⟨false, 60⟩, 5, 300⟩

/-- Environment whose every attempt delivers a decodable body. -/
def envOk : Nat → AttemptStep := fun _ => .body "B"

/-- Decoder returning the empty market page. -/
def decLW : String → Option (List Market) := fun _ => some []

/-- Initial client state. -/
def stC0 : ClientState := ⟨[], [], Metrics.new⟩

/-- Witness for C8 at keywords ELECTION and election over a one-market
page containing that keyword in its question. -/
theorem c8_search_case_insensitive_witness :
    search_markets cfgOff decLW envOk 0 0 "ELECTION" none stC0
      = search_markets cfgOff decLW envOk 0 0 "election" none stC0
    ∧ (electionMarket ∈ search_filter "ELECTION" [electionMarket] ↔
        electionMarket ∈ [electionMarket] ∧
          (strContains (strToLower electionMarket.question) (strToLower "ELECTION") = true
           ∨ (∃ d, electionMarket.description = some d
                ∧ strContains (strToLower d) (strToLower "ELECTION") = true)
           ∨ (∃ c, electionMarket.category = some c
                ∧ strContains (strToLower c) (strToLower "ELECTION") = true))) :=
  c8_search_case_insensitive cfgOff decLW envOk 0 0 none stC0
    "ELECTION" "election" [electionMarket] electionMarket rfl

/-- The accumulation loop of `get_market_prices` is the `filterMap` over
the outcome indices of the looked-up, parsed price. -/
theorem collectPrices_eq_filterMap (parse : String → Option Rat)
    (mid ts : String) (ops : List String) (l : List Nat) :
    collectPrices parse mid ts ops l
      = l.filterMap (fun i => (ops[i]?.bind parse).map
          (fun p => ⟨mid, "outcome_" ++ toString i, p, ts⟩)) := by
  induction l with
  | nil => rfl
  | cons i rest ih =>
      rw [List.filterMap_cons]
      cases hg : ops[i]? with
      | none => simp [collectPrices, hg, ih, Option.bind]
      | some ps =>
          cases hp : parse ps with
          | none => simp [collectPrices, hg, hp, ih, Option.bind]
          | some p => simp [collectPrices, hg, hp, ih, Option.bind]

/-- C9: when the underlying market fetch succeeds, `get_market_prices`
returns (with no error) exactly one entry per index `i` of `outcomes`
such that `outcome_prices` also has an index `i` whose string parses, in
increasing index order; an index whose price string fails to parse is
silently skipped. -/
theorem c9_prices_filterMap (cfg : Config) (decode : String → Option Market)
    (env : Nat → AttemptStep) (sample : Rat) (now : Nat)
    (parse : String → Option Rat) (ts mid : String) (st : ClientState)
    (market : Market) (st' : ClientState)
    (h : get_market_by_id cfg decode env sample now mid st = (.ok market, st')) :
    get_market_prices cfg decode env sample now parse ts mid st
      = (.ok ((List.range market.outcomes.length).filterMap
          (fun i => (market.outcome_prices[i]?.bind parse).map
            (fun p => ⟨mid, "outcome_" ++ toString i, p, ts⟩))), st')
    ∧ isOkE (get_market_prices cfg decode env sample now parse ts mid st).1 = true := by
  have key : get_market_prices cfg decode env sample now parse ts mid st
      = (.ok ((List.range market.outcomes.length).filterMap
          (fun i => (market.outcome_prices[i]?.bind parse).map
            (fun p => ⟨mid, "outcome_" ++ toString i, p, ts⟩))), st') := by
    unfold get_market_prices
    rw [h]
    simp only [collectPrices_eq_filterMap]
  exact ⟨key, by rw [key]; rfl⟩

/-- A concrete market with two outcomes, the second of whose price
strings does not parse. -/
def badPriceMarket : Market :=
  { electionMarket with
    id := "m2"
    outcomes := ["Yes", "No"]
    outcome_prices := ["0.6", "not-a-number"] }

/-- Decoder returning the two-outcome market. -/
def decMW : String → Option Market := fun _ => some badPriceMarket

/-- Price parser accepting only the string 0.6. -/
def parseW : String → Option Rat := fun s => if s = "0.6" then some (3 / 5) else none

/-- Witness for C9 at a concrete fetch whose second price string fails to
parse: the fetch hypothesis is discharged at the actual evaluation. -/
theorem c9_prices_filterMap_witness :
    get_market_prices cfgOff decMW envOk 0 0 parseW "T" "m2" stC0
      = (.ok ((List.range badPriceMarket.outcomes.length).filterMap
          (fun i => (badPriceMarket.outcome_prices[i]?.bind parseW).map
            (fun p => ⟨"m2", "outcome_" ++ toString i, p, "T"⟩))),
         (get_market_by_id cfgOff decMW envOk 0 0 "m2" stC0).2)
    ∧ isOkE (get_market_prices cfgOff decMW envOk 0 0 parseW "T" "m2" stC0).1 = true :=
  c9_prices_filterMap cfgOff decMW envOk 0 0 parseW "T" "m2" stC0
    badPriceMarket (get_market_by_id cfgOff decMW envOk 0 0 "m2" stC0).2
    (Prod.ext rfl rfl)

/-- The average update leaves every counter unchanged. -/
theorem update_avg_counters (m : Metrics) (t : Rat) :
    (m.update_avg_response_time t).api_requests_total = m.api_requests_total
    ∧ (m.update_avg_response_time t).api_requests_failed = m.api_requests_failed
    ∧ (m.update_avg_response_time t).cache_hits = m.cache_hits
    ∧ (m.update_avg_response_time t).cache_misses = m.cache_misses := by
  unfold Metrics.update_avg_response_time
  split <;> exact ⟨rfl, rfl, rfl, rfl⟩

/-- The fetcher never touches the cache-hit / cache-miss counters. -/
theorem makeRequest_cache_counters {T : Type} (cfg : Config)
    (decode : String → Option T) (env : Nat → AttemptStep) (sample : Rat)
    (m : Metrics) :
    (makeRequestWithRetry cfg decode env sample m).2.1.cache_hits = m.cache_hits
    ∧ (makeRequestWithRetry cfg decode env sample m).2.1.cache_misses = m.cache_misses := by
  unfold makeRequestWithRetry
  cases ho : (retryGo cfg.api.max_retries cfg.retry_delay_ms decode env
      cfg.api.max_retries none).result with
  | ok data =>
      simp only [ho]
      exact ⟨(update_avg_counters _ _).2.2.1, (update_avg_counters _ _).2.2.2⟩
  | error e =>
      simp only [ho]
      exact ⟨rfl, rfl⟩

/-- C3, corrected: with the caching flag off, `get_markets` and
`get_market_by_id` equal the cache-free pipeline — the cache maps are
neither consulted nor written (the output is a function of the metrics
and the fetch alone, and both cache fields pass through unchanged) and no
cache-hit metric is recorded; however, contrary to the original claim,
the cache-miss counter is incremented once on every such call, because
the source increments it unconditionally before fetching. -/
theorem c3_cache_disabled_behaviour (cfg : Config)
    (decL : String → Option (List Market)) (decM : String → Option Market)
    (env : Nat → AttemptStep) (sample : Rat) (now : Nat)
    (params : Option MarketsQueryParams) (mid : String) (st : ClientState)
    (h : cfg.cache.enabled = false) :
    (get_markets cfg decL env sample now params st
      = (let r := makeRequestWithRetry cfg decL env sample
           st.metrics.increment_cache_misses
         (r.1, { st with metrics := r.2.1 })))
    ∧ (get_market_by_id cfg decM env sample now mid st
      = (let r := makeRequestWithRetry cfg decM env sample
           st.metrics.increment_cache_misses
         (r.1, { st with metrics := r.2.1 })))
    ∧ (get_markets cfg decL env sample now params st).2.metrics.cache_hits
        = st.metrics.cache_hits
    ∧ (get_markets cfg decL env sample now params st).2.metrics.cache_misses
        = st.metrics.cache_misses + 1
    ∧ (get_market_by_id cfg decM env sample now mid st).2.metrics.cache_hits
        = st.metrics.cache_hits
    ∧ (get_market_by_id cfg decM env sample now mid st).2.metrics.cache_misses
        = st.metrics.cache_misses + 1 := by
  have e1 : get_markets cfg decL env sample now params st
      = (let r := makeRequestWithRetry cfg decL env sample
           st.metrics.increment_cache_misses
         (r.1, { st with metrics := r.2.1 })) := by
    unfold get_markets
    rw [h]
    simp only [Bool.false_eq_true, if_false]
    cases hr : (makeRequestWithRetry cfg decL env sample
        st.metrics.increment_cache_misses).1 with
    | ok response => simp [hr]
    | error e => simp [hr]
  have e2 : get_market_by_id cfg decM env sample now mid st
      = (let r := makeRequestWithRetry cfg decM env sample
           st.metrics.increment_cache_misses
         (r.1, { st with metrics := r.2.1 })) := by
    unfold get_market_by_id
    rw [h]
    simp only [Bool.false_eq_true, if_false]
    cases hr : (makeRequestWithRetry cfg decM env sample
        st.metrics.increment_cache_misses).1 with
    | ok market => simp [hr]
    | error e => simp [hr]
  refine ⟨e1, e2, ?_, ?_, ?_, ?_⟩
  · rw [e1]
    exact (makeRequest_cache_counters cfg decL env sample _).1
  · rw [e1]
    exact ((makeRequest_cache_counters cfg decL env sample _).2).trans rfl
  · rw [e2]
    exact (makeRequest_cache_counters cfg decM env sample _).1
  · rw [e2]
    exact ((makeRequest_cache_counters cfg decM env sample _).2).trans rfl

/-- Counterexample to C3 as stated: with caching disabled, the concrete
call still changes the cache-miss counter (from 0 to 1), so the hit and
miss counters are not both unchanged. -/
theorem c3_cache_disabled_counterexample :
    cfgOff.cache.enabled = false
    ∧ (get_markets cfgOff decLW envOk 0 0 none stC0).2.metrics.cache_misses
        ≠ stC0.metrics.cache_misses := by
  exact ⟨rfl, by decide⟩

/-- Witness for C3 (corrected) at a concrete disabled configuration. -/
theorem c3_cache_disabled_behaviour_witness :
    (get_markets cfgOff decLW envOk 0 0 none stC0
      = (let r := makeRequestWithRetry cfgOff decLW envOk 0
           stC0.metrics.increment_cache_misses
         (r.1, { stC0 with metrics := r.2.1 })))
    ∧ (get_market_by_id cfgOff decMW envOk 0 0 "m2" stC0
      = (let r := makeRequestWithRetry cfgOff decMW envOk 0
           stC0.metrics.increment_cache_misses
         (r.1, { stC0 with metrics := r.2.1 })))
    ∧ (get_markets cfgOff decLW envOk 0 0 none stC0).2.metrics.cache_hits
        = stC0.metrics.cache_hits
    ∧ (get_markets cfgOff decLW envOk 0 0 none stC0).2.metrics.cache_misses
        = stC0.metrics.cache_misses + 1
    ∧ (get_market_by_id cfgOff decMW envOk 0 0 "m2" stC0).2.metrics.cache_hits
        = stC0.metrics.cache_hits
    ∧ (get_market_by_id cfgOff decMW envOk 0 0 "m2" stC0).2.metrics.cache_misses
        = stC0.metrics.cache_misses + 1 :=
  c3_cache_disabled_behaviour cfgOff decLW decMW envOk 0 0 none "m2" stC0 rfl

/-- Inserting into an association map makes the key immediately visible. -/
theorem mapInsert_lookup_self {V : Type} (k : String) (v : V)
    (l : List (String × V)) : (mapInsert k v l).lookup k = some v := by
  unfold mapInsert
  simp [List.lookup]

/-- C4, corrected: on a resource-cache miss whose render succeeds,
`read_resource` always writes the rendered text back into the resource
cache with the configured TTL — for every configuration, in particular
also when the caching flag is disabled, since the source performs the
insertion unconditionally. -/
theorem c4_resource_cache_writeback (cfg : Config)
    (decL : String → Option (List Market)) (decM : String → Option Market)
    (env : Nat → AttemptStep) (sample : Rat) (now : Nat) (render : RenderFns)
    (uri : String) (st : ServerState) (content : String) (cst' : ClientState)
    (h1 : resourceHit st uri now = none)
    (h2 : renderResource cfg decL decM env sample now render uri st.client
            = (.ok content, cst')) :
    read_resource cfg decL decM env sample now render uri st
      = (.ok (mkContents uri content),
         { st with
             client := cst'
             resource_cache :=
               mapInsert uri
                 (ResourceCache.new content cfg.resource_cache_ttl_seconds now)
                 st.resource_cache })
    ∧ ((read_resource cfg decL decM env sample now render uri st).2.resource_cache.lookup uri
        = some (ResourceCache.new content cfg.resource_cache_ttl_seconds now)) := by
  have key : read_resource cfg decL decM env sample now render uri st
      = (.ok (mkContents uri content),
         { st with
             client := cst'
             resource_cache :=
               mapInsert uri
                 (ResourceCache.new content cfg.resource_cache_ttl_seconds now)
                 st.resource_cache }) := by
    unfold read_resource
    rw [h1, h2]
  refine ⟨key, ?_⟩
  rw [key]
  exact mapInsert_lookup_self uri _ st.resource_cache

/-- Concrete render functions for the witnesses. -/
def renderW : RenderFns := ⟨fun _ => "A", fun _ => "T", fun _ => "M"⟩

/-- Initial server state. -/
def stS0 : ServerState := ⟨stC0, [], Metrics.new⟩

/-- Counterexample to C4 as stated: with the caching flag disabled, a
successful render of `markets:active` still writes the resource cache
(the resource cache of the state changes from empty to non-empty). -/
theorem c4_resource_cache_counterexample :
    cfgOff.cache.enabled = false
    ∧ (read_resource cfgOff decLW decMW envOk 0 0 renderW "markets:active"
        stS0).2.resource_cache ≠ stS0.resource_cache := by
  refine ⟨rfl, ?_⟩
  intro hcontra
  have : ((read_resource cfgOff decLW decMW envOk 0 0 renderW "markets:active"
      stS0).2.resource_cache).length = (stS0.resource_cache).length := by
    rw [hcontra]
  revert this
  decide

/-- Witness for C4 (corrected) at a concrete disabled configuration: the
miss and successful-render hypotheses are discharged at the actual
evaluation. -/
theorem c4_resource_cache_writeback_witness :
    read_resource cfgOff decLW decMW envOk 0 0 renderW "markets:active" stS0
      = (.ok (mkContents "markets:active" "A"),
         { stS0 with
             client := (renderResource cfgOff decLW decMW envOk 0 0 renderW
               "markets:active" stS0.client).2
             resource_cache :=
               mapInsert "markets:active"
                 (ResourceCache.new "A" cfgOff.resource_cache_ttl_seconds 0)
                 stS0.resource_cache })
    ∧ ((read_resource cfgOff decLW decMW envOk 0 0 renderW "markets:active"
          stS0).2.resource_cache.lookup "markets:active"
        = some (ResourceCache.new "A" cfgOff.resource_cache_ttl_seconds 0)) :=
  c4_resource_cache_writeback cfgOff decLW decMW envOk 0 0 renderW
    "markets:active" stS0 "A"
    (renderResource cfgOff decLW decMW envOk 0 0 renderW "markets:active" stS0.client).2
    rfl (Prod.ext rfl rfl)

/-- A non-successful `Except` is an error. -/
theorem isOkE_false_elim {ε α : Type} (x : Except ε α) (h : isOkE x = false) :
    ∃ e, x = .error e := by
  cases x with
  | ok a => simp [isOkE] at h
  | error e => exact ⟨e, rfl⟩

/-- A failing attempt produces exactly the error candidate extracted by
`attemptErr`. -/
theorem attemptResult_error_of_not_ok {T : Type} (decode : String → Option T)
    (s : AttemptStep) (h : isOkE (attemptResult decode s) = false) :
    attemptResult decode s = .error (attemptErr decode s) := by
  unfold attemptErr
  cases hx : attemptResult decode s with
  | ok a => rw [hx] at h; simp [isOkE] at h
  | error e => simp

/-- Full description of the retry loop when every attempt in the window
fails: it runs all `r` remaining attempts, sleeps the doubling backoff
after each attempt except the last, and ends with the error captured on
attempt `maxR` (or the generic network failure when no attempt ran). -/
theorem retryGo_fail {T : Type} (maxR base : Nat) (decode : String → Option T)
    (env : Nat → AttemptStep) :
    ∀ (r : Nat) (le : Option PolymarketError), r ≤ maxR →
      (∀ i, maxR - r < i → i ≤ maxR → isOkE (attemptResult decode (env i)) = false) →
      retryGo maxR base decode env r le
        = ⟨.error (match r with
             | 0 => le.getD (.networkError "All retry attempts failed")
             | _ + 1 => attemptErr decode (env maxR)),
           r,
           (List.range' (maxR - r + 1) (r - 1)).map (fun a => base * 2 ^ a)⟩ := by
  intro r
  induction r with
  | zero =>
      intro le _ _
      simp [retryGo]
  | succ n ih =>
      intro le hle hfail
      have hn : n ≤ maxR := Nat.le_of_succ_le hle
      have hatt : isOkE (attemptResult decode (env (maxR - n))) = false :=
        hfail (maxR - n) (by omega) (by omega)
      have herr := attemptResult_error_of_not_ok decode (env (maxR - n)) hatt
      have hrest := ih (some (attemptErr decode (env (maxR - n)))) hn
        (fun i h1 h2 => hfail i (by omega) h2)
      unfold retryGo
      simp only [herr, hrest]
      simp only [RetryOutcome.mk.injEq]
      refine ⟨?_, trivial, ?_⟩
      · cases n with
        | zero => simp
        | succ k => rfl
      · by_cases hc : maxR - n < maxR
        · have hn1 : 1 ≤ n := by omega
          have h1 : maxR - (n + 1) + 1 = maxR - n := by omega
          have h2 : n + 1 - 1 = (n - 1) + 1 := by omega
          rw [if_pos hc, h1, h2, List.range'_succ, List.map_cons]
        · have hn0 : n = 0 := by omega
          subst hn0
          rw [if_neg hc]
          rfl

/-- The retry loop succeeds exactly when some attempt in its window
succeeds (it scans the attempts in order and stops only at a success). -/
theorem retryGo_isOk {T : Type} (maxR base : Nat) (decode : String → Option T)
    (env : Nat → AttemptStep) :
    ∀ (r : Nat) (le : Option PolymarketError), r ≤ maxR →
      isOkE (retryGo maxR base decode env r le).result
        = (List.range' (maxR - r + 1) r).any
            (fun i => isOkE (attemptResult decode (env i))) := by
  intro r
  induction r with
  | zero =>
      intro le _
      simp [retryGo, isOkE]
  | succ n ih =>
      intro le hle
      have hn : n ≤ maxR := Nat.le_of_succ_le hle
      have h1 : maxR - (n + 1) + 1 = maxR - n := by omega
      rw [h1, List.range'_succ, List.any_cons]
      unfold retryGo
      cases hx : attemptResult decode (env (maxR - n)) with
      | ok data => simp [hx, isOkE]
      | error e =>
          simp only [hx, isOkE, Bool.false_or]
          exact ih (some e) hn

/-- Whether every one of the `1..=max_retries` attempts fails. -/
def allAttemptsFailed {T : Type} (maxRetries : Nat) (decode : String → Option T)
    (env : Nat → AttemptStep) : Bool :=
  (List.range' 1 maxRetries).all (fun i => !(isOkE (attemptResult decode (env i))))

/-- C5: against an always-failing environment, the fetcher performs
exactly `max_retries` attempts and sleeps `base_delay * 2^attempt` after
each 1-indexed attempt except the last; with `max_retries = 3` the total
slept duration is `base_delay * (2^1 + 2^2)`. -/
theorem c5_retry_backoff {T : Type} (cfg : Config) (decode : String → Option T)
    (env : Nat → AttemptStep) (sample : Rat) (m : Metrics)
    (hfail : ∀ i, 1 ≤ i → i ≤ cfg.api.max_retries →
      isOkE (attemptResult decode (env i)) = false) :
    (makeRequestWithRetry cfg decode env sample m).2.2.1 = cfg.api.max_retries
    ∧ (makeRequestWithRetry cfg decode env sample m).2.2.2
        = (List.range' 1 (cfg.api.max_retries - 1)).map
            (fun attempt => cfg.retry_delay_ms * 2 ^ attempt)
    ∧ (cfg.api.max_retries = 3 →
        (makeRequestWithRetry cfg decode env sample m).2.2.2.sum
          = cfg.retry_delay_ms * (2 ^ 1 + 2 ^ 2)) := by
  have hwin : ∀ i, cfg.api.max_retries - cfg.api.max_retries < i →
      i ≤ cfg.api.max_retries → isOkE (attemptResult decode (env i)) = false := by
    intro i h1 h2
    exact hfail i (by omega) h2
  have hgo := retryGo_fail cfg.api.max_retries cfg.retry_delay_ms decode env
    cfg.api.max_retries none (Nat.le_refl _) hwin
  have hshift : cfg.api.max_retries - cfg.api.max_retries + 1 = 1 := by omega
  rw [hshift] at hgo
  unfold makeRequestWithRetry
  rw [hgo]
  refine ⟨rfl, rfl, ?_⟩
  intro h3
  rw [h3]
  simp [List.range']
  ring

/-- C6: against an always-failing environment, the returned error is the
candidate captured on the last attempt; when no attempt ever ran
(`max_retries = 0`), the generic network failure is returned instead. -/
theorem c6_last_error {T : Type} (cfg : Config) (decode : String → Option T)
    (env : Nat → AttemptStep) (sample : Rat) (m : Metrics)
    (hfail : ∀ i, 1 ≤ i → i ≤ cfg.api.max_retries →
      isOkE (attemptResult decode (env i)) = false) :
    (makeRequestWithRetry cfg decode env sample m).1
      = .error (match cfg.api.max_retries with
          | 0 => .networkError "All retry attempts failed"
          | _ + 1 => attemptErr decode (env cfg.api.max_retries))
    ∧ (0 < cfg.api.max_retries →
        attemptResult decode (env cfg.api.max_retries)
          = .error (attemptErr decode (env cfg.api.max_retries))) := by
  have hwin : ∀ i, cfg.api.max_retries - cfg.api.max_retries < i →
      i ≤ cfg.api.max_retries → isOkE (attemptResult decode (env i)) = false := by
    intro i h1 h2
    exact hfail i (by omega) h2
  have hgo := retryGo_fail cfg.api.max_retries cfg.retry_delay_ms decode env
    cfg.api.max_retries none (Nat.le_refl _) hwin
  constructor
  · unfold makeRequestWithRetry
    rw [hgo]
    cases hm : cfg.api.max_retries with
    | zero => rfl
    | succ k => rfl
  · intro hpos
    exact attemptResult_error_of_not_ok decode (env cfg.api.max_retries)
      (hfail cfg.api.max_retries (by omega) (Nat.le_refl _))

/-- Environment whose every attempt fails at the transport level. -/
def envFail : Nat → AttemptStep := fun _ => .sendErr "connection refused"

/-- Concrete configuration with three retries and base delay 5. -/
def cfgRetry3 : Config := ⟨⟨"http://localhost", none, 3⟩, ⟨true, 60⟩, 5, 300⟩

/-- Decoder that never succeeds (its input never arrives anyway). -/
def decNone : String → Option Nat := fun _ => none

/-- Witness for C5: three attempts, sleeps 5*2 and 5*4, total 5*(2+4). -/
theorem c5_retry_backoff_witness :
    (makeRequestWithRetry cfgRetry3 decNone envFail 0 Metrics.new).2.2.1
      = cfgRetry3.api.max_retries
    ∧ (makeRequestWithRetry cfgRetry3 decNone envFail 0 Metrics.new).2.2.2
        = (List.range' 1 (cfgRetry3.api.max_retries - 1)).map
            (fun attempt => cfgRetry3.retry_delay_ms * 2 ^ attempt)
    ∧ (cfgRetry3.api.max_retries = 3 →
        (makeRequestWithRetry cfgRetry3 decNone envFail 0 Metrics.new).2.2.2.sum
          = cfgRetry3.retry_delay_ms * (2 ^ 1 + 2 ^ 2)) :=
  c5_retry_backoff cfgRetry3 decNone envFail 0 Metrics.new (fun _ _ _ => rfl)

/-- Witness for C6 at the same always-failing instance. -/
theorem c6_last_error_witness :
    (makeRequestWithRetry cfgRetry3 decNone envFail 0 Metrics.new).1
      = .error (match cfgRetry3.api.max_retries with
          | 0 => .networkError "All retry attempts failed"
          | _ + 1 => attemptErr decNone (envFail cfgRetry3.api.max_retries))
    ∧ (0 < cfgRetry3.api.max_retries →
        attemptResult decNone (envFail cfgRetry3.api.max_retries)
          = .error (attemptErr decNone (envFail cfgRetry3.api.max_retries))) :=
  c6_last_error cfgRetry3 decNone envFail 0 Metrics.new (fun _ _ _ => rfl)

/-- C7: per fetcher call, the requests-total counter rises by exactly one
regardless of the number of attempts; the requests-failed counter rises
by one exactly when every attempt failed (equivalently, when the call
returns an error); the running average is updated only on success, by
the incremental rule `(avg * (n - 1) + sample) / n` with `n` the
post-increment total;
and the cache counters are untouched. -/
theorem c7_metrics {T : Type} (cfg : Config) (decode : String → Option T)
    (env : Nat → AttemptStep) (sample : Rat) (m : Metrics) :
    isOkE (makeRequestWithRetry cfg decode env sample m).1
      = !(allAttemptsFailed cfg.api.max_retries decode env)
    ∧ (makeRequestWithRetry cfg decode env sample m).2.1.api_requests_total
        = m.api_requests_total + 1
    ∧ (makeRequestWithRetry cfg decode env sample m).2.1.api_requests_failed
        = m.api_requests_failed
            + (if allAttemptsFailed cfg.api.max_retries decode env then 1 else 0)
    ∧ (makeRequestWithRetry cfg decode env sample m).2.1.avg_response_time_ms
        = (if allAttemptsFailed cfg.api.max_retries decode env then
             m.avg_response_time_ms
           else
             (m.avg_response_time_ms * (m.api_requests_total : Rat) + sample)
               / ((m.api_requests_total : Rat) + 1))
    ∧ (makeRequestWithRetry cfg decode env sample m).2.1.cache_hits = m.cache_hits
    ∧ (makeRequestWithRetry cfg decode env sample m).2.1.cache_misses = m.cache_misses := by
  have hok : isOkE (retryGo cfg.api.max_retries cfg.retry_delay_ms decode env
      cfg.api.max_retries none).result
      = !(allAttemptsFailed cfg.api.max_retries decode env) := by
    have h := retryGo_isOk cfg.api.max_retries cfg.retry_delay_ms decode env
      cfg.api.max_retries none (Nat.le_refl _)
    have hshift : cfg.api.max_retries - cfg.api.max_retries + 1 = 1 := by omega
    rw [hshift] at h
    rw [h]
    unfold allAttemptsFailed
    rw [List.any_eq_not_all_not]
  have havg : (Metrics.update_avg_response_time m.increment_api_requests sample).avg_response_time_ms
      = (m.avg_response_time_ms * (m.api_requests_total : Rat) + sample)
          / ((m.api_requests_total : Rat) + 1) := by
    unfold Metrics.update_avg_response_time Metrics.increment_api_requests
    rw [if_pos (by simp)]
    push_cast
    ring_nf
  unfold makeRequestWithRetry
  cases ho : (retryGo cfg.api.max_retries cfg.retry_delay_ms decode env
      cfg.api.max_retries none).result with
  | ok data =>
      rw [ho] at hok
      have hfl : allAttemptsFailed cfg.api.max_retries decode env = false := by
        cases hall : allAttemptsFailed cfg.api.max_retries decode env with
        | false => rfl
        | true => rw [hall] at hok; exact absurd hok (by simp [isOkE])
      simp only [ho, hfl, Bool.not_false]
      exact ⟨rfl, (update_avg_counters _ _).1, (update_avg_counters _ _).2.1, havg,
             (update_avg_counters _ _).2.2.1, (update_avg_counters _ _).2.2.2⟩
  | error e =>
      rw [ho] at hok
      have hfl : allAttemptsFailed cfg.api.max_retries decode env = true := by
        cases hall : allAttemptsFailed cfg.api.max_retries decode env with
        | true => rfl
        | false => rw [hall] at hok; exact absurd hok (by simp [isOkE])
      simp only [ho, hfl, Bool.not_true]
      exact ⟨rfl, rfl, rfl, rfl, rfl, rfl⟩

/-- The `tools/call` arm produces a payload exactly when its required
string fields are present. -/
theorem toolsCall_isSome (ops : ServerOps) (params : Json) :
    (toolsCall ops params).isSome = requiredToolsOk params := by
  unfold toolsCall requiredToolsOk
  cases hn : (params.get "name").bind Json.asStr with
  | none => rfl
  | some name =>
      simp only [hn]
      by_cases h1 : name = "get_active_markets"
      · simp [h1]
      · by_cases h2 : name = "get_market_details"
        · simp only [if_neg h1, if_pos h2]
          cases hm : ((((params.get "arguments").getD (Json.obj [])).get "market_id").bind
              Json.asStr) with
          | none => simp [hm]
          | some mid => simp [hm]
        · by_cases h3 : name = "search_markets"
          · simp only [if_neg h1, if_neg h2, if_pos h3]
            cases hk : ((((params.get "arguments").getD (Json.obj [])).get "keyword").bind
                Json.asStr) with
            | none => simp [hk]
            | some kw => simp [hk]
          · by_cases h4 : name = "get_market_prices"
            · simp only [if_neg h1, if_neg h2, if_neg h3, if_pos h4]
              cases hm : ((((params.get "arguments").getD (Json.obj [])).get "market_id").bind
                  Json.asStr) with
              | none => simp [hm]
              | some mid => simp [hm]
            · by_cases h5 : name = "get_trending_markets"
              · simp [if_neg h1, if_neg h2, if_neg h3, if_neg h4, h5]
              · simp [if_neg h1, if_neg h2, if_neg h3, if_neg h4, if_neg h5]

/-- The dispatch produces a payload exactly when the method-specific
required string fields are present. -/
theorem dispatchMethod_isSome (ops : ServerOps) (method : String) (params : Json) :
    (dispatchMethod ops method params).isSome = requiredFieldsOk method params := by
  unfold dispatchMethod requiredFieldsOk
  by_cases h1 : method = "initialize"
  · simp [h1]
  · by_cases h2 : method = "tools/list"
    · simp [if_neg h1, h2]
    · by_cases h3 : method = "tools/call"
      · simp only [if_neg h1, if_neg h2, if_pos h3]
        exact toolsCall_isSome ops params
      · by_cases h4 : method = "resources/list"
        · simp [if_neg h1, if_neg h2, if_neg h3, h4]
        · by_cases h5 : method = "resources/read"
          · simp only [if_neg h1, if_neg h2, if_neg h3, if_neg h4, if_pos h5]
            cases hu : (params.get "uri").bind Json.asStr with
            | none => simp [hu]
            | some uri => simp [hu]
          · by_cases h6 : method = "prompts/list"
            · simp [if_neg h1, if_neg h2, if_neg h3, if_neg h4, if_neg h5, h6]
            · by_cases h7 : method = "prompts/get"
              · simp only [if_neg h1, if_neg h2, if_neg h3, if_neg h4, if_neg h5,
                  if_neg h6, if_pos h7]
                cases hp : (params.get "name").bind Json.asStr with
                | none => simp [hp]
                | some nm => simp [hp]
              · simp [if_neg h1, if_neg h2, if_neg h3, if_neg h4, if_neg h5,
                  if_neg h6, if_neg h7]

/-- C1, corrected: a decoded non-notification request produces exactly
one response line — an envelope with the echoed id and a `result`
payload — provided its method-specific required string fields are present
(`tools/call` needs `name` and, per tool, `market_id` or `keyword`;
`resources/read` needs `uri`; `prompts/get` needs `name`). When such a
field is absent, the source handler aborts through `?` and, contrary to
the original claim, writes no response line at all. -/
theorem c1_one_response_line (ops : ServerOps) (request : Json) (method : String)
    (h1 : (request.get "method").bind Json.asStr = some method)
    (h2 : strStartsWith method "notifications/" = false) :
    (requiredFieldsOk method ((request.get "params").getD Json.null) = true →
      ∃ result, dispatchLine ops request = [mkEnvelope (request.get "id") result])
    ∧ (requiredFieldsOk method ((request.get "params").getD Json.null) = false →
      dispatchLine ops request = []) := by
  unfold dispatchLine handle_mcp_request
  simp only [h1, h2, Bool.false_eq_true, if_false]
  cases hd : dispatchMethod ops method ((request.get "params").getD Json.null) with
  | none =>
      have hreq : requiredFieldsOk method ((request.get "params").getD Json.null) = false := by
        have h := dispatchMethod_isSome ops method ((request.get "params").getD Json.null)
        rw [hd] at h
        exact h.symm
      constructor
      · intro htrue
        rw [hreq] at htrue
        cases htrue
      · intro _
        simp [hd]
  | some result =>
      have hreq : requiredFieldsOk method ((request.get "params").getD Json.null) = true := by
        have h := dispatchMethod_isSome ops method ((request.get "params").getD Json.null)
        rw [hd] at h
        exact h.symm
      constructor
      · intro _
        exact ⟨result, by simp [hd]⟩
      · intro hfalse
        rw [hreq] at hfalse
        cases hfalse

/-- A server-operation implementation whose every call trivially
succeeds, used to instantiate the dispatcher theorems. -/
def trivialOps : ServerOps :=
  ⟨fun _ => .ok (Json.obj []), fun _ => .ok (Json.obj []),
   fun _ _ => .ok (Json.obj []), fun _ => .ok (Json.obj []),
   fun _ => .ok (Json.obj []), .ok (Json.obj []),
   fun _ => .ok (Json.obj []), .ok (Json.obj []),
   fun _ _ => .ok (Json.obj []), fun _ => ""⟩

/-- A `tools/call` request whose params carry no `name` member. -/
def reqMissingName : Json :=
  Json.obj [("method", Json.str "tools/call"), ("id", Json.num 1),
    ("params", Json.obj [])]

/-- Counterexample to C1 as stated: a decoded non-notification
`tools/call` request whose params lack `name` produces zero response
lines, not one. -/
theorem c1_one_response_line_counterexample :
    (reqMissingName.get "method").bind Json.asStr = some "tools/call"
    ∧ strStartsWith "tools/call" "notifications/" = false
    ∧ dispatchLine trivialOps reqMissingName = [] :=
  ⟨rfl, rfl, rfl⟩

/-- A well-formed `initialize` request. -/
def reqInit : Json :=
  Json.obj [("method", Json.str "initialize"), ("id", Json.num 1)]

/-- Witness for C1 (corrected) at a concrete `initialize` request. -/
theorem c1_one_response_line_witness :
    (requiredFieldsOk "initialize" ((reqInit.get "params").getD Json.null) = true →
      ∃ result, dispatchLine trivialOps reqInit
        = [mkEnvelope (reqInit.get "id") result])
    ∧ (requiredFieldsOk "initialize" ((reqInit.get "params").getD Json.null) = false →
      dispatchLine trivialOps reqInit = []) :=
  c1_one_response_line trivialOps reqInit "initialize" rfl rfl

/-- C2, corrected: for an unrecognized non-notification method, the
response envelope carries the fixed `-32601` object nested inside its
`result` member; the envelope itself has no top-level `error` member,
contrary to the original claim. -/
theorem c2_unknown_method (ops : ServerOps) (request : Json) (method : String)
    (h1 : (request.get "method").bind Json.asStr = some method)
    (h2 : strStartsWith method "notifications/" = false)
    (h3 : method ≠ "initialize") (h4 : method ≠ "tools/list")
    (h5 : method ≠ "tools/call") (h6 : method ≠ "resources/list")
    (h7 : method ≠ "resources/read") (h8 : method ≠ "prompts/list")
    (h9 : method ≠ "prompts/get") :
    handle_mcp_request ops request
      = some (mkEnvelope (request.get "id") methodNotFoundResult)
    ∧ (mkEnvelope (request.get "id") methodNotFoundResult).get "error" = none
    ∧ (mkEnvelope (request.get "id") methodNotFoundResult).get "result"
        = some methodNotFoundResult
    ∧ methodNotFoundResult.get "error"
        = some (Json.obj [("code", Json.num (-32601)),
            ("message", Json.str "Method not found")]) := by
  refine ⟨?_, rfl, rfl, rfl⟩
  unfold handle_mcp_request
  simp only [h1, h2, Bool.false_eq_true, if_false]
  unfold dispatchMethod
  simp only [if_neg h3, if_neg h4, if_neg h5, if_neg h6, if_neg h7, if_neg h8,
    if_neg h9]

/-- A request with an unrecognized method. -/
def reqBogus : Json :=
  Json.obj [("method", Json.str "bogus/unknown"), ("id", Json.num 7)]

/-- Counterexample to C2 as stated: for the concrete unknown method the
envelope has no top-level `error` member (it is `none`, not the `-32601`
object); the error object sits inside `result`. -/
theorem c2_unknown_method_counterexample :
    handle_mcp_request trivialOps reqBogus
      = some (mkEnvelope (some (Json.num 7)) methodNotFoundResult)
    ∧ (mkEnvelope (some (Json.num 7)) methodNotFoundResult).get "error" = none :=
  ⟨rfl, rfl⟩

/-- Witness for C2 (corrected) at the concrete unknown method. -/
theorem c2_unknown_method_witness :
    handle_mcp_request trivialOps reqBogus
      = some (mkEnvelope (reqBogus.get "id") methodNotFoundResult)
    ∧ (mkEnvelope (reqBogus.get "id") methodNotFoundResult).get "error" = none
    ∧ (mkEnvelope (reqBogus.get "id") methodNotFoundResult).get "result"
        = some methodNotFoundResult
    ∧ methodNotFoundResult.get "error"
        = some (Json.obj [("code", Json.num (-32601)),
            ("message", Json.str "Method not found")]) :=
  c2_unknown_method trivialOps reqBogus "bogus/unknown" rfl rfl
    (by decide) (by decide) (by decide) (by decide) (by decide) (by decide)
    (by decide)

end Polymarket
